import Mathlib

/-!
Verification development for the DIRAC Job Scheduling optimizer
(`src/WorkloadManagementSystem/Executor/JobScheduling.py`).

The Python code is shallowly embedded: every collaborator call
(`jobState`, `JobDB`, `getSEsForSite`, `StorageElement.getStatus`,
`StorageManagerClient.setRequest`, configuration lookups) is modelled as an
explicit input of the embedded function, the DIRAC `S_OK` / `S_ERROR`
envelope is modelled by the `SResult` type below, and the observable side
effects of a call (`freezeTask`, `setAppStatus`, `setStatus`,
`setParameter`) are collected in an event trace.  Python dictionaries are
represented by association lists: iterating a Python 2 dict visits each key
exactly once in some fixed order, which is exactly what folding over an
association list does; quantifying over all association lists covers all
possible iteration orders.
-/

namespace JobScheduling

/-- The DIRAC result envelope: `S_OK(value)` / `S_ERROR(message)`. -/
inductive SResult (α : Type) where
  | sOk (value : α)
  | sError (message : String)
deriving DecidableEq, Repr

/-- Per-site replica record: number of disk and tape replicas of the job's
input data visible at the site (`opData['SiteCandidates'][site]`).
Integers, not naturals, so that the code's unguarded arithmetic on the
counters is represented exactly. -/
structure SiteReplicaRecord where
  disk : Int
  tape : Int
deriving DecidableEq, Repr

/-- The record invariant stated by the spec's data model: both counters
non-negative and their sum bounded by the number of input files. -/
def recordInv (n : Nat) (r : SiteReplicaRecord) : Prop :=
  0 ≤ r.disk ∧ 0 ≤ r.tape ∧ r.disk + r.tape ≤ (n : Int)

instance (n : Nat) (r : SiteReplicaRecord) : Decidable (recordInv n r) := by
  unfold recordInv; infer_instance

/-- Status of a storage element, as returned by
`StorageElement(seName, vo).getStatus()`. -/
structure SEStatus where
  read : Bool
  write : Bool
  diskSE : Bool
  tapeSE : Bool
deriving DecidableEq, Repr

/-- A stage request: mapping SE name to the list of LFNs to stage from it
(`stageLFNs` in the source), represented as an association list. -/
abbrev StageMap := List (String × List String)

/-- Observable side effects of one optimizer call. -/
inductive Event where
  | freezeTask (delay : Int)
  | setAppStatus (msg : String)
  | setStatus (major minor : String)
  | setParameter (key value : String)
  | setRequestCall (ok : Bool)
deriving DecidableEq, Repr

/-- The minor-status strings of the `setStatus` events of a trace, in
order. -/
def minorWrites : List Event → List String
  | [] => []
  | Event.setStatus _ minor :: rest => minor :: minorWrites rest
  | _ :: rest => minorWrites rest

/-- The `banned` argument of `_applySiteFilter` as a Python dynamic value:
a `list` / `set` / `dict` (the `isinstance` tuple of the source), some
other truthy non-enumerable value, or a falsy value (`False`, `None`).
An empty `listArg` is falsy in Python, which the definition below
respects. -/
inductive BannedArg where
  | listArg (banned : List String)
  | nonEnum
  | noneArg
deriving DecidableEq, Repr

/-- Source method `_applySiteFilter` (lines 226-235):

    if not sites: return sites
    filtered = set( sites )
    if banned and isinstance( banned, ( list, set, dict ) ):
      filtered -= set( banned )
    return list( filtered )

`set(sites)` is modelled by `sites.dedup` (one representative per distinct
name) and the set difference by `filter`. -/
def applySiteFilter (sites : List String) (banned : BannedArg) : List String :=
  if sites = [] then sites
  else
    match banned with
    | BannedArg.listArg bannedList =>
        if bannedList ≠ [] then (sites.dedup).filter (fun s => decide (s ∉ bannedList))
        else sites.dedup
    | _ => sites.dedup

/-- Source method `__holdJob` (lines 237-243): freeze the task for
`delay` seconds if `delay` is non-zero (truthy), else for the configured
`HoldTime` (default 300), then set the application status.  The returned
envelope is the result of `jobState.setAppStatus`. -/
def holdJobCall (holdTime : Int) (setAppStatusRes : SResult Unit) (holdMsg : String)
    (delay : Int) : List Event × SResult Unit :=
  let d := if delay ≠ 0 then delay else holdTime
  ([Event.freezeTask d, Event.setAppStatus holdMsg], setAppStatusRes)

/-- Reschedule back-off gate of `optimizeJob` (source lines 61-66):

    if reschedules != 0:
      delays = self.ex_getOption( 'RescheduleDelays', [60, 180, 300, 600] )
      delay = delays[ min( reschedules, len( delays ) - 1 ) ]
      waited = toEpoch() - toEpoch( fromString( attDict[ 'RescheduleTime' ] ) )
      if waited < delay:
        return self.__holdJob( jobState, 'On Hold: after rescheduling %s' % reschedules, delay )

`reschedules` is the parsed `RescheduleCounter`, `waited` the elapsed
seconds since `RescheduleTime`.  `some` means the job is held (with the
events and envelope of `__holdJob`), `none` that control falls through.
Python's indexing raises on an empty `delays` list and indexes from the
end for a negative counter; the claims below only use indices that are in
range, where `getD _ 0` agrees with the source. -/
def rescheduleGate (delays : List Int) (holdTime : Int) (setAppStatusRes : SResult Unit)
    (reschedules waited : Int) : Option (List Event × SResult Unit) :=
  if reschedules ≠ 0 then
    let delay := delays.getD (min reschedules ((delays.length : Int) - 1)).toNat 0
    if waited < delay then
      some (holdJobCall holdTime setAppStatusRes
        ("On Hold: after rescheduling " ++ toString reschedules) delay)
    else none
  else none

/-- Replica/Site intersection of `optimizeJob` (source lines 151-157):

    siteCandidates = self._applySiteFilter( list( set( siteCandidates ) & set( userSites ) ),
                                            banned = userBannedSites )
    if not siteCandidates:
      return S_ERROR( "Impossible InputData * Site requirements" )

`siteCandidateKeys` are the keys of `opData['SiteCandidates']`;
`list(set(a) & set(b))` is modelled as dedup-then-filter. -/
def intersectSiteCandidates (siteCandidateKeys userSites userBannedSites : List String) :
    SResult (List String) :=
  let inter := (siteCandidateKeys.dedup).filter (fun s => decide (s ∈ userSites))
  let filtered := applySiteFilter inter (BannedArg.listArg userBannedSites)
  if filtered = [] then SResult.sError "Impossible InputData * Site requirements"
  else SResult.sOk filtered

/-- Inputs of `JobScheduling.__requestStaging` that come from collaborators:
the two configuration options (`none` = option absent, the source default
applies) and the result envelopes of the three collaborator calls made by
the method. -/
structure StagingEnv where
  stagingStatusOpt : Option String
  stagingMinorStatusOpt : Option String
  firstSetStatus : SResult Unit
  setRequest : SResult Int
  secondSetStatus : SResult Unit

/-- Source method `__requestStaging` (lines 434-465): set status
`(StagingStatus default "Staging", StagingMinorStatus default
"Request To Be Sent")`; call `stagerClient.setRequest`, on failure return
`S_ERROR("Problem sending staging request")`; record the request id with
`setParameter("StageRequest", str(rid))`; set status
`(StagingStatus default "Staging", StagingMinorStatus default
"Request Sent")`; return the `stageLFNs` argument unchanged.  The trace
records each collaborator call in program order. -/
def requestStaging {α : Type} (env : StagingEnv) (stageLFNs : α) :
    List Event × SResult α :=
  let major := env.stagingStatusOpt.getD "Staging"
  let tr1 := [Event.setStatus major (env.stagingMinorStatusOpt.getD "Request To Be Sent")]
  match env.firstSetStatus with
  | SResult.sError m => (tr1, SResult.sError m)
  | SResult.sOk _ =>
    match env.setRequest with
    | SResult.sError _ =>
        (tr1 ++ [Event.setRequestCall false], SResult.sError "Problem sending staging request")
    | SResult.sOk rid =>
      let tr2 := tr1 ++ [Event.setRequestCall true,
        Event.setParameter "StageRequest" (toString rid)]
      let tr3 := tr2 ++ [Event.setStatus major (env.stagingMinorStatusOpt.getD "Request Sent")]
      match env.secondSetStatus with
      | SResult.sError m => (tr3, SResult.sError m)
      | SResult.sOk _ => (tr3, SResult.sOk stageLFNs)

/-- Outcome of the production-job shortcut of `optimizeJob`. -/
inductive ProdOutcome where
  | success
  | sentToTQ
  | held (setAppRes : SResult Unit)
  | failure (msg : String)
deriving DecidableEq, Repr

/-- Collaborator inputs of the production-job shortcut. -/
structure ProdEnv where
  filesToStage : SResult (List String)
  checkStageAllowed : SResult Bool
  holdTime : Int
  setAppStatusRes : SResult Unit
  staging : StagingEnv

/-- Production-job shortcut of `optimizeJob` (source lines 123-137):

    res = getFilesToStage( inputData, ... )
    if not res['OK']:
      return self.__holdJob( jobState, res['Message'] )
    stageLFNs = res['Value']['offlineLFNs']
    if stageLFNs:
      res = self.__checkStageAllowed( jobState )
      if not res['OK']:
        return res
      if not res['Value']:
        return S_ERROR( "Stage not allowed" )
      self.__requestStaging( jobState, stageLFNs )
      return S_OK()
    else:
      return self.__sendToTQ( jobState, userSites, userBannedSites )

Note that the return value of `__requestStaging` is discarded: the branch
ends in a plain `return S_OK()` (`ProdOutcome.success`).  `sentToTQ`
stands for the delegation to `__sendToTQ`, which is not modelled
further. -/
def productionShortcut (env : ProdEnv) : List Event × ProdOutcome :=
  match env.filesToStage with
  | SResult.sError m =>
    ((holdJobCall env.holdTime env.setAppStatusRes m 0).1,
     ProdOutcome.held (holdJobCall env.holdTime env.setAppStatusRes m 0).2)
  | SResult.sOk stageLFNs =>
    if stageLFNs = [] then ([], ProdOutcome.sentToTQ)
    else
      match env.checkStageAllowed with
      | SResult.sError m => ([], ProdOutcome.failure m)
      | SResult.sOk allowed =>
        if allowed then
          ((requestStaging env.staging stageLFNs).1, ProdOutcome.success)
        else ([], ProdOutcome.failure "Stage not allowed")

/-- Accumulator of the loop of `__resolveStaging` (source lines 326-343). -/
structure ResolveState where
  diskSites : List String
  maxOnDisk : Int
  bestSites : List String
deriving Repr

/-- One iteration of the `for site in idSites` loop of `__resolveStaging`
(source lines 330-343): collect `site` into `diskSites` when it has all
input data on disk, and maintain the running maximum `maxOnDisk` together
with `bestSites`, the sites attaining it. -/
def resolveStep (n : Int) (st : ResolveState) (p : String × SiteReplicaRecord) : ResolveState :=
  let nDisk := p.2.disk
  let ds :=
    if 0 < nDisk then
      if nDisk = n then st.diskSites ++ [p.1] else st.diskSites
    else st.diskSites
  if st.maxOnDisk < nDisk then ⟨ds, nDisk, [p.1]⟩
  else if nDisk = st.maxOnDisk then ⟨ds, st.maxOnDisk, st.bestSites ++ [p.1]⟩
  else ⟨ds, st.maxOnDisk, st.bestSites⟩

/-- Source method `__resolveStaging` (lines 325-353).  Here `shuffle`
stands for `random.shuffle`: it is an arbitrary function applied only when
`len(bestSites) > 1`; the theorems below assume it permutes its input.
Returns `(stageRequired, siteCandidates)`. -/
def resolveStaging (shuffle : List String → List String) (inputData : List String)
    (idSites : List (String × SiteReplicaRecord)) : Bool × List String :=
  let st := idSites.foldl (resolveStep (inputData.length : Int)) ⟨[], 0, []⟩
  if st.diskSites ≠ [] then (false, st.diskSites)
  else (true, if 1 < st.bestSites.length then shuffle st.bestSites else st.bestSites)

/-- SE classification loop of `__preRequestStaging` (source lines 361-378):
for each SE of the site query its status; a failing status query aborts
the whole build; accumulate read-tape SEs and read-disk SEs in order. -/
def classifySEs (seStat : String → SResult SEStatus) :
    List String → List String → List String → SResult (List String × List String)
  | [], tapeSEs, diskSEs => SResult.sOk (tapeSEs, diskSEs)
  | seName :: rest, tapeSEs, diskSEs =>
    match seStat seName with
    | SResult.sError _ => SResult.sError "Cannot retrieve SE status"
    | SResult.sOk st =>
      let tapeSEs := if st.read && st.tapeSE then tapeSEs ++ [seName] else tapeSEs
      let diskSEs := if st.read && st.diskSE then diskSEs ++ [seName] else diskSEs
      classifySEs seStat rest tapeSEs diskSEs

/-- Inner scan of the replica SEs of one LFN (source lines 393-402): a
replica on a disk SE clears the accumulated `seStage` and breaks out; a
replica on a tape SE is accumulated; anything else is skipped. -/
def seStageGo (diskSEs tapeSEs : List String) (acc : List String) : List String → List String
  | [] => acc
  | seName :: rest =>
    if seName ∈ diskSEs then []
    else if seName ∉ tapeSEs then seStageGo diskSEs tapeSEs acc rest
    else seStageGo diskSEs tapeSEs (acc ++ [seName]) rest

/-- The `seStage` list computed for one LFN. -/
def seStageFor (diskSEs tapeSEs replicas : List String) : List String :=
  seStageGo diskSEs tapeSEs [] replicas

/-- Models `stageLFNs[seName].append(lfn)`, creating the entry if the SE is not
yet a key (source lines 404-406). -/
def appendLFN (seName lfn : String) : StageMap → StageMap
  | [] => [(seName, [lfn])]
  | p :: rest =>
    if p.1 = seName then (p.1, p.2 ++ [lfn]) :: rest
    else p :: appendLFN seName lfn rest

/-- Body of `for seName in seStage` (source lines 403-408): append the LFN
to that SE's list and record the LFN once in `lfnToStage`. -/
def addSE (lfn : String) (st : StageMap × List String) (seName : String) :
    StageMap × List String :=
  (appendLFN seName lfn st.1, if lfn ∈ st.2 then st.2 else st.2 ++ [lfn])

/-- The `for lfn in inputData` construction loop of `__preRequestStaging`
(source lines 390-408), producing the over-replicated `stageLFNs` map and
the ordered `lfnToStage` list. -/
def buildStage (diskSEs tapeSEs : List String) :
    List (String × List String) → StageMap → List String → StageMap × List String
  | [], stage, toStage => (stage, toStage)
  | (lfn, replicas) :: rest, stage, toStage =>
    let seStage := seStageFor diskSEs tapeSEs replicas
    let st := seStage.foldl (addSE lfn) (stage, toStage)
    buildStage diskSEs tapeSEs rest st.1 st.2

/-- Replace the list bound to a key of the map (in-place mutation of
`stageLFNs[seName]`). -/
def setSE (seName : String) (l : List String) : StageMap → StageMap
  | [] => []
  | p :: rest => if p.1 = seName then (seName, l) :: rest else p :: setSE seName l rest

/-- Models `stageLFNs.pop(seName)` (source line 429). -/
def removeSE (seName : String) : StageMap → StageMap
  | [] => []
  | p :: rest => if p.1 = seName then rest else p :: removeSE seName rest

/-- Body of the `for _stageCount, seName in sortedSEs` loop of the
minimization (source lines 420-429): on the first SE containing the LFN
mark it found, on later ones remove the LFN; pop the SE if its list became
empty.  An SE absent from the map is skipped (`stageLFNs.pop` only ever
removes the SE being processed, so with distinct keys this case is
unreachable; in Python it would raise). -/
def minimizeStep (lfn : String) (st : StageMap × Bool) (ise : Nat × String) :
    StageMap × Bool :=
  let seName := ise.2
  match st.1.lookup seName with
  | none => st
  | some l =>
    let r :=
      if lfn ∈ l then
        if st.2 then (l.erase lfn, st.2) else (l, true)
      else (l, st.2)
    let stage2 := setSE seName r.1 st.1
    let stage3 := if r.1.length = 0 then removeSE seName stage2 else stage2
    (stage3, r.2)

/-- Lexicographic comparison of character lists by code point (the
ordering Python's `sorted` uses on the `seName` strings). -/
def charListLE : List Char → List Char → Bool
  | [], _ => true
  | _ :: _, [] => false
  | a :: as, b :: bs =>
    if a.toNat < b.toNat then true
    else if b.toNat < a.toNat then false
    else charListLE as bs

/-- Ascending comparison on `(listLength, seName)` pairs, matching
Python's tuple ordering used by `sorted` (source line 416). -/
def pairLE (a b : Nat × String) : Bool :=
  decide (a.1 < b.1) || (decide (a.1 = b.1) && charListLE a.2.toList b.2.toList)

/-- Insert into an ascending list (insertion sort, modelling `sorted`). -/
def insertSorted (x : Nat × String) : List (Nat × String) → List (Nat × String)
  | [] => [x]
  | y :: ys => if pairLE x y then x :: y :: ys else y :: insertSorted x ys

/-- Models `sorted( [ (len(stageLFNs[se]), se) for se in stageLFNs ] )`. -/
def sortPairs (l : List (Nat × String)) : List (Nat × String) :=
  l.foldr insertSorted []

/-- The `for lfn in lfnToStage` minimization loop (source lines 417-429).
In the source, `sortedSEs = reversed( sorted( ... ) )` (line 416) is a
one-shot iterator: the inner loop of the first LFN consumes it entirely
(it contains no `break`), so the inner loop of every later LFN iterates an
already-exhausted iterator and does nothing.  The recursion passes `[]` as
the iterator for the remaining LFNs to model exactly that. -/
def minimizeLoop : List (Nat × String) → List String → StageMap → StageMap
  | _, [], stage => stage
  | iter, lfn :: rest, stage =>
    minimizeLoop [] rest (iter.foldl (minimizeStep lfn) (stage, false)).1

/-- Source method `__preRequestStaging` (lines 355-431).
`sesForSite` is the result of `getSEsForSite(stageSite)`, `seStat` the
status oracle `StorageElement(seName, vo).getStatus()`, `lfnReplicas` the
replica catalog `opData['Value']['Value']['Successful']` as an association
list LFN -> replica SE names. -/
def preRequestStaging (stageSite : String) (sesForSite : SResult (List String))
    (seStat : String → SResult SEStatus) (lfnReplicas : List (String × List String)) :
    SResult StageMap :=
  match sesForSite with
  | SResult.sError _ => SResult.sError ("Could not determine SEs for site " ++ stageSite)
  | SResult.sOk siteSEs =>
    match classifySEs seStat siteSEs [] [] with
    | SResult.sError m => SResult.sError m
    | SResult.sOk (tapeSEs, diskSEs) =>
      if tapeSEs = [] then SResult.sError ("No Local SEs for site " ++ stageSite)
      else
        let built := buildStage diskSEs tapeSEs lfnReplicas [] []
        if built.1 = [] then SResult.sError "Cannot find tape replicas"
        else
          let sortedSEs := (sortPairs (built.1.map (fun p => (p.2.length, p.1)))).reverse
          SResult.sOk (minimizeLoop sortedSEs built.2 built.1)

/-- How many SE lists of a stage map contain the given LFN. -/
def seCountFor (lfn : String) (st : StageMap) : Nat :=
  (st.filter (fun p => decide (lfn ∈ p.2))).length

/-- Step-15 rewrite of the chosen stage site's replica record (source
lines 204-205): `stageData['disk'] += stageData['tape']; stageData['tape'] = 0`. -/
def stagedAsDoneRewrite (r : SiteReplicaRecord) : SiteReplicaRecord :=
  { disk := r.disk + r.tape, tape := 0 }

/-- Per-LFN mutation of the Shared-SE Updater (source lines 522-523):
`siteData['disk'] += 1; siteData['tape'] -= 1`. -/
def sharedSEIncrement (r : SiteReplicaRecord) : SiteReplicaRecord :=
  { disk := r.disk + 1, tape := r.tape - 1 }

/-- Collaborator oracles of `__updateSharedSESites`. -/
structure SharedEnv where
  getSEsForSite : String → SResult (List String)
  seStatusOf : String → SResult SEStatus

/-- The disk SEs among `closeSEs` (source lines 486-499): SEs whose status
query succeeds with `Read` and `DiskSE`.  The source caches statuses in a
dict, which for a fixed oracle returns the same value as querying again. -/
def diskSEsAmong (env : SharedEnv) (closeSEs : List String) : List String :=
  closeSEs.filter (fun seName =>
    match env.seStatusOf seName with
    | SResult.sOk st => st.read && st.diskSE
    | SResult.sError _ => false)

/-- Update of one sibling site's record by the staged LFNs (source lines
504-523): for each staged SE that is close to the site, for each of its
LFNs present in the catalog and not already on a disk SE of the site,
increment disk and decrement tape. -/
def updateSiteRecord (diskSEs : List String) (lfnData : List (String × List String))
    (stagedLFNs : StageMap) (closeSEs : List String) (r : SiteReplicaRecord) :
    SiteReplicaRecord :=
  stagedLFNs.foldl
    (fun r p =>
      if p.1 ∉ closeSEs then r
      else
        p.2.foldl
          (fun r lfn =>
            match lfnData.lookup lfn with
            | none => r
            | some replicas =>
              let onDisk := replicas.any (fun siteSE => decide (siteSE ∈ diskSEs))
              if onDisk then r else sharedSEIncrement r)
          r)
    r

/-- Source method `__updateSharedSESites` (lines 468-525), restricted
to its effect on the replica records: every site of `siteCandidates` other
than `stageSite` whose `getSEsForSite` succeeds has its record updated by
`updateSiteRecord`; the others are untouched. -/
def updateSharedSESites (env : SharedEnv) (stageSite : String) (stagedLFNs : StageMap)
    (lfnData : List (String × List String))
    (siteCandidates : List (String × SiteReplicaRecord)) :
    List (String × SiteReplicaRecord) :=
  siteCandidates.map (fun p =>
    if p.1 = stageSite then p
    else
      match env.getSEsForSite p.1 with
      | SResult.sError _ => p
      | SResult.sOk closeSEs =>
        (p.1, updateSiteRecord (diskSEsAmong env closeSEs) lfnData stagedLFNs closeSEs p.2))

/-- Models `site.split( "." )` on the underlying character list: split at every
dot, Python's `str.split('.')`. -/
def splitDotChars : List Char → List (List Char)
  | [] => [[]]
  | c :: rest =>
    match splitDotChars rest with
    | [] => [[]]
    | h :: t => if c = '.' then [] :: h :: t else (c :: h) :: t

/-- Models `".".join(...)` on character lists. -/
def joinDot : List (List Char) → List Char
  | [] => []
  | [x] => x
  | x :: xs => x ++ '.' :: joinDot xs

/-- Models `".".join( site.split( "." )[1:] )`: drop the leading dotted token. -/
def stripLeadingToken (s : String) : String :=
  String.mk (joinDot (splitDotChars s.data).tail)

/-- The `for siteName in siteList` loop of `__setJobSite` (source lines
539-556), carried state `(tierLevel, tierSite)` starting at `(-1, [])`:
skip sites whose tier lookup fails, normalize tier 0 to 1, reset the
collection when a strictly smaller tier appears, and collect sites at the
current minimum. -/
def tierLoop (tierOf : String → SResult Int) :
    List String → Int → List String → Int × List String
  | [], tierLevel, tierSite => (tierLevel, tierSite)
  | siteName :: rest, tierLevel, tierSite =>
    match tierOf siteName with
    | SResult.sError _ => tierLoop tierOf rest tierLevel tierSite
    | SResult.sOk t =>
      let siteTier := if t = 0 then 1 else t
      let st :=
        if tierLevel = -1 ∨ siteTier < tierLevel then (siteTier, ([] : List String))
        else (tierLevel, tierSite)
      let ts2 := if st.1 = siteTier then st.2 ++ [siteName] else st.2
      tierLoop tierOf rest st.1 ts2

/-- Source method `__setJobSite` (lines 528-565), returning the value
written to the `Site` attribute.  `tierOf` is `getSiteTier`. -/
def setJobSite (tierOf : String → SResult Int) (siteList : List String) : String :=
  match siteList with
  | [] => "ANY"
  | [s] => s
  | _ =>
    let res := tierLoop tierOf siteList (-1) []
    match res.2 with
    | [st] => "Group." ++ stripLeadingToken st
    | _ => "Multiple"

/-- The sites with a successful tier lookup paired with their normalized
(0 -> 1) tiers, in order.  Written from the claim's words, for comparison
with the loop of the source. -/
def normalizedTiers (tierOf : String → SResult Int) (siteList : List String) :
    List (String × Int) :=
  siteList.filterMap (fun s =>
    match tierOf s with
    | SResult.sError _ => none
    | SResult.sOk t => some (s, if t = 0 then 1 else t))

/-- The minimum normalized tier (`-1` when no site resolves).  Written from
the claim's words. -/
def minNormTier (tierOf : String → SResult Int) (siteList : List String) : Int :=
  match normalizedTiers tierOf siteList with
  | [] => -1
  | q :: rest => rest.foldl (fun a r => min a r.2) q.2

/-- The Site-Assignment Summarizer as the claim states it: empty list ->
"ANY", singleton -> the site, otherwise the unique minimum-tier site with
its leading dotted token stripped and "Group." prepended, else "Multiple". -/
def setJobSiteSpec (tierOf : String → SResult Int) (siteList : List String) : String :=
  match siteList with
  | [] => "ANY"
  | [s] => s
  | _ =>
    let attain := ((normalizedTiers tierOf siteList).filter
      (fun q => decide (q.2 = minNormTier tierOf siteList))).map Prod.fst
    match attain with
    | [st] => "Group." ++ stripLeadingToken st
    | _ => "Multiple"

/-- The `banned` argument is falsy or not a `list` / `set` / `dict`: the
cases in which `_applySiteFilter` performs no subtraction. -/
def bannedIsInert : BannedArg → Prop
  | BannedArg.listArg l => l = []
  | BannedArg.nonEnum => True
  | BannedArg.noneArg => True

/-- C1: the claim says that for a user job with input data and an empty
`userSites` list the intersector treats the empty list as the universe and
computes `keys(SiteCandidates) \ userBannedSites`.  The code does not: it
intersects with `userSites` unconditionally, so an empty `userSites`
always yields an empty intersection and `optimizeJob` fails with
"Impossible InputData * Site requirements", whatever the candidate keys
and banned sites are. -/
theorem c1_empty_user_sites (siteCandidateKeys userBannedSites : List String) :
    intersectSiteCandidates siteCandidateKeys [] userBannedSites
      = SResult.sError "Impossible InputData * Site requirements" := by
  unfold intersectSiteCandidates
  have h : (siteCandidateKeys.dedup).filter (fun s => decide (s ∈ ([] : List String))) = [] := by
    simp
  rw [h]
  rfl

/-- C2: the claim says that after minimization every LFN appears in exactly
one SE's list.  Because `reversed(sorted(...))` is a one-shot iterator
that the first LFN's pass exhausts, deduplication never runs for later
LFNs: with two tape SEs T1, T2 and two LFNs A, B each replicated on both,
the emitted map is `{T1: [B], T2: [A, B]}`, in which B appears in two SE
lists. -/
theorem c2_minimization_bug :
    preRequestStaging "X" (SResult.sOk ["T1", "T2"])
        (fun _ => SResult.sOk ⟨true, false, false, true⟩)
        [("A", ["T1", "T2"]), ("B", ["T1", "T2"])]
      = SResult.sOk [("T1", ["B"]), ("T2", ["A", "B"])]
    ∧ seCountFor "B" [("T1", ["B"]), ("T2", ["A", "B"])] = 2 :=
  ⟨by decide, by decide⟩

/-- C3 counterexample: on the production-job shortcut the result of
`__requestStaging` is discarded, so even though the stager's `setRequest`
fails (and `__requestStaging` returns the failure envelope), the optimizer
call returns success, contradicting the claim that every path propagates
"Problem sending staging request". -/
theorem c3_production_discards_staging_failure :
    (productionShortcut ⟨SResult.sOk ["L"], SResult.sOk true, 300, SResult.sOk (),
        ⟨none, none, SResult.sOk (), SResult.sError "boom", SResult.sOk ()⟩⟩).2
      = ProdOutcome.success
    ∧ (requestStaging ⟨none, none, SResult.sOk (), SResult.sError "boom", SResult.sOk ()⟩
        (["L"] : List String)).2
      = SResult.sError "Problem sending staging request" :=
  ⟨rfl, rfl⟩

/-- C3 amended: whenever the stager's `setRequest` call fails,
`__requestStaging` itself returns the failure envelope
"Problem sending staging request" (which the user-job path propagates);
the production-job shortcut, however, discards that result and returns
success whenever it reaches the staging call. -/
theorem c3_staging_failure_paths :
    (∀ (α : Type) (env : StagingEnv) (stageLFNs : α) (m : String),
        env.firstSetStatus = SResult.sOk () → env.setRequest = SResult.sError m →
        (requestStaging env stageLFNs).2 = SResult.sError "Problem sending staging request")
    ∧ (∀ (env : ProdEnv) (lfns : List String),
        env.filesToStage = SResult.sOk lfns → lfns ≠ [] →
        env.checkStageAllowed = SResult.sOk true →
        (productionShortcut env).2 = ProdOutcome.success) := by
  constructor
  · intro α env stageLFNs m h1 h2
    simp [requestStaging, h1, h2]
  · intro env lfns h1 h2 h3
    simp [productionShortcut, h1, h2, h3]

/-- C3 witness: both parts of the amended claim at concrete inputs. -/
theorem c3_staging_failure_paths_witness :
    (requestStaging ⟨none, none, SResult.sOk (), SResult.sError "x", SResult.sOk ()⟩
        (["F"] : List String)).2 = SResult.sError "Problem sending staging request"
    ∧ (productionShortcut ⟨SResult.sOk ["F"], SResult.sOk true, 300, SResult.sOk (),
        ⟨none, none, SResult.sOk (), SResult.sOk 3, SResult.sOk ()⟩⟩).2
      = ProdOutcome.success :=
  ⟨c3_staging_failure_paths.1 (List String) _ _ "x" rfl rfl,
   c3_staging_failure_paths.2 _ ["F"] rfl (by decide) rfl⟩

/-- C4 counterexample: with the default delays, counter 1 and 10 seconds
already waited, the delay is `delays[min(1, 3)] = 180` and `freezeTask`
receives the full 180 seconds, not the remaining `180 - 10`. -/
theorem c4_full_delay_counterexample :
    rescheduleGate [60, 180, 300, 600] 300 (SResult.sOk ()) 1 10
      = some ([Event.freezeTask 180, Event.setAppStatus "On Hold: after rescheduling 1"],
          SResult.sOk ())
    ∧ (180 : Int) ≠ 180 - 10 :=
  ⟨rfl, by decide⟩

/-- C4 amended: for counter > 0 with the not-yet-elapsed delay
`delay = delays[min(counter, |delays|-1)]` (non-zero), the job is held
with application status "On Hold: after rescheduling <counter>" and the
duration passed to `freezeTask` is the full `delay`, not the remaining
part. -/
theorem c4_reschedule_hold (delays : List Int) (holdTime : Int) (sres : SResult Unit)
    (counter waited delay : Int) (hc : 0 < counter)
    (hdelay : delay = delays.getD (min counter ((delays.length : Int) - 1)).toNat 0)
    (hpos : 0 < delay) (hw : waited < delay) :
    rescheduleGate delays holdTime sres counter waited
      = some ([Event.freezeTask delay,
          Event.setAppStatus ("On Hold: after rescheduling " ++ toString counter)], sres) := by
  subst hdelay
  have hc0 : counter ≠ 0 := by omega
  have hd0 : delays.getD (min counter ((delays.length : Int) - 1)).toNat 0 ≠ 0 := by omega
  simp only [rescheduleGate, holdJobCall, if_pos hc0, if_pos hw, if_pos hd0]

/-- C4 witness: the amended claim at counter 2, 100 seconds waited,
default delays. -/
theorem c4_reschedule_hold_witness :
    rescheduleGate [60, 180, 300, 600] 300 (SResult.sOk ()) 2 100
      = some ([Event.freezeTask 300,
          Event.setAppStatus ("On Hold: after rescheduling " ++ toString (2 : Int))],
          SResult.sOk ()) :=
  c4_reschedule_hold [60, 180, 300, 600] 300 (SResult.sOk ()) 2 100 300
    (by decide) (by decide) (by decide) (by decide)

/-- C5 counterexample: the Shared-SE Updater's per-LFN mutation is not
guarded, so from the invariant-satisfying state
`{X: (1, 0), Y: (0, 0)}` (one input file) it drives site Y's record to
`(1, -1)`, violating `tape >= 0`. -/
theorem c5_tape_goes_negative :
    recordInv 1 (SiteReplicaRecord.mk 1 0) ∧ recordInv 1 (SiteReplicaRecord.mk 0 0)
    ∧ updateSharedSESites
        ⟨fun _ => SResult.sOk ["T1"], fun _ => SResult.sOk ⟨true, false, false, true⟩⟩
        "X" [("T1", ["L"])] [("L", ["T1"])]
        [("X", SiteReplicaRecord.mk 1 0), ("Y", SiteReplicaRecord.mk 0 0)]
      = [("X", SiteReplicaRecord.mk 1 0), ("Y", SiteReplicaRecord.mk 1 (-1))]
    ∧ ¬ recordInv 1 (SiteReplicaRecord.mk 1 (-1)) :=
  ⟨by decide, by decide, rfl, by decide⟩

/-- C5 amended: the step-15 rewrite `disk += tape; tape = 0` preserves the
full record invariant; the Shared-SE per-LFN mutation `disk += 1;
tape -= 1` always preserves `disk >= 0` and the sum `disk + tape` (hence
the upper bound), but preserves `tape >= 0` only under the additional
hypothesis `1 <= tape`. -/
theorem c5_invariant_preservation :
    (∀ (n : Nat) (r : SiteReplicaRecord), recordInv n r → recordInv n (stagedAsDoneRewrite r))
    ∧ (∀ (n : Nat) (r : SiteReplicaRecord), recordInv n r → 1 ≤ r.tape →
        recordInv n (sharedSEIncrement r))
    ∧ (∀ r : SiteReplicaRecord,
        (sharedSEIncrement r).disk + (sharedSEIncrement r).tape = r.disk + r.tape) := by
  refine ⟨fun n r h => ?_, fun n r h h1 => ?_, fun r => ?_⟩ <;>
    simp only [recordInv, stagedAsDoneRewrite, sharedSEIncrement] at * <;> omega

/-- C5 witness: both preservation statements at the concrete record
`(1, 1)` with two input files. -/
theorem c5_invariant_preservation_witness :
    recordInv 2 (SiteReplicaRecord.mk 1 1)
    ∧ recordInv 2 (stagedAsDoneRewrite (SiteReplicaRecord.mk 1 1))
    ∧ recordInv 2 (sharedSEIncrement (SiteReplicaRecord.mk 1 1)) :=
  ⟨by decide, c5_invariant_preservation.1 2 (SiteReplicaRecord.mk 1 1) (by decide),
   c5_invariant_preservation.2.1 2 (SiteReplicaRecord.mk 1 1) (by decide) (by decide)⟩

/-- C6 counterexample: with a falsy `banned`, `_applySiteFilter` returns
`list(set(sites))`, which collapses duplicates: on `["A", "A"]` the result
has one element, so the input is not returned unchanged. -/
theorem c6_duplicates_counterexample :
    applySiteFilter ["A", "A"] BannedArg.noneArg ≠ ["A", "A"] := by decide

/-- C6 amended: when `banned` is falsy or not an enumerable collection
(`list` / `set` / `dict`), the filter returns `list(set(sites))`: a
duplicate-free list with exactly the sites of the input (order
unspecified); only an empty input is returned unchanged. -/
theorem c6_site_filter_inert (sites : List String) (banned : BannedArg)
    (h : bannedIsInert banned) :
    (applySiteFilter sites banned).Nodup
    ∧ (∀ s, s ∈ applySiteFilter sites banned ↔ s ∈ sites)
    ∧ (sites = [] → applySiteFilter sites banned = sites) := by
  have main : applySiteFilter sites banned = if sites = [] then sites else sites.dedup := by
    cases banned with
    | listArg l =>
      have hl : l = [] := h
      subst hl
      simp [applySiteFilter]
    | nonEnum => simp [applySiteFilter]
    | noneArg => simp [applySiteFilter]
  rw [main]
  by_cases hs : sites = []
  · subst hs
    exact ⟨by simp, by simp, fun _ => rfl⟩
  · rw [if_neg hs]
    exact ⟨List.nodup_dedup sites, fun s => List.mem_dedup, fun c => absurd c hs⟩

/-- C6 witness: the amended claim at the concrete input `["A", "A", "B"]`
with a falsy `banned`. -/
theorem c6_site_filter_inert_witness :
    ("A" ∈ applySiteFilter ["A", "A", "B"] BannedArg.noneArg ↔ "A" ∈ ["A", "A", "B"])
    ∧ (applySiteFilter ["A", "A", "B"] BannedArg.noneArg).Nodup :=
  ⟨(c6_site_filter_inert ["A", "A", "B"] BannedArg.noneArg trivial).2.1 "A",
   (c6_site_filter_inert ["A", "A", "B"] BannedArg.noneArg trivial).1⟩

/-- C9 counterexample: with the `StagingMinorStatus` option absent, the two
status transitions of `__requestStaging` use the two different defaults
"Request To Be Sent" and then "Request Sent" — the source does not pass
the first default for the second transition, contrary to the claim. -/
theorem c9_minor_status_counterexample :
    minorWrites (requestStaging ⟨none, none, SResult.sOk (), SResult.sOk 7, SResult.sOk ()⟩
        (["L"] : List String)).1
      = ["Request To Be Sent", "Request Sent"]
    ∧ ("Request Sent" : String) ≠ "Request To Be Sent" :=
  ⟨rfl, by decide⟩

/-- C9 amended: both transitions read the same configuration key
`StagingMinorStatus` but with different defaults: when the option is
absent the minor statuses are "Request To Be Sent" then "Request Sent";
when the option is set to `v`, the single configured value `v` overrides
both transitions. -/
theorem c9_minor_status_defaults (env : StagingEnv) (rid : Int) {α : Type} (lfns : α)
    (h1 : env.firstSetStatus = SResult.sOk ()) (h2 : env.setRequest = SResult.sOk rid) :
    (env.stagingMinorStatusOpt = none →
      minorWrites (requestStaging env lfns).1 = ["Request To Be Sent", "Request Sent"])
    ∧ (∀ v, env.stagingMinorStatusOpt = some v →
      minorWrites (requestStaging env lfns).1 = [v, v]) := by
  constructor
  · intro hm
    cases hs2 : env.secondSetStatus <;>
      simp [requestStaging, h1, h2, hs2, hm, minorWrites]
  · intro v hm
    cases hs2 : env.secondSetStatus <;>
      simp [requestStaging, h1, h2, hs2, hm, minorWrites]

/-- C9 witness: the amended claim at a concrete environment, for the
absent-option and configured-option cases. -/
theorem c9_minor_status_defaults_witness :
    minorWrites (requestStaging ⟨none, none, SResult.sOk (), SResult.sOk 4, SResult.sOk ()⟩
        (["L"] : List String)).1 = ["Request To Be Sent", "Request Sent"]
    ∧ minorWrites (requestStaging ⟨none, some "Custom", SResult.sOk (), SResult.sOk 4,
        SResult.sOk ()⟩ (["L"] : List String)).1 = ["Custom", "Custom"] :=
  ⟨(c9_minor_status_defaults _ 4 (["L"] : List String) rfl rfl).1 rfl,
   (c9_minor_status_defaults _ 4 (["L"] : List String) rfl rfl).2 "Custom" rfl⟩

/-- C8: in every execution of `__requestStaging` under the default status
configuration, `setParameter("StageRequest", rid)` is called iff the
stager's `setRequest` succeeded; when it is called the trace is exactly
status write (Staging, "Request To Be Sent"), successful `setRequest`,
the parameter write, status write (Staging, "Request Sent") — so the
parameter write sits between the two status writes; and the two status
writes never occur in the opposite order: every initial segment of the trace
containing the (Staging, "Request Sent") write already contains the
(Staging, "Request To Be Sent") write. -/
theorem c8_dispatcher_ordering (env : StagingEnv) {α : Type} (stageLFNs : α)
    (h1 : env.stagingStatusOpt = none) (h2 : env.stagingMinorStatusOpt = none) :
    ((∃ rid, Event.setParameter "StageRequest" rid ∈ (requestStaging env stageLFNs).1)
      ↔ Event.setRequestCall true ∈ (requestStaging env stageLFNs).1)
    ∧ (∀ rid, Event.setParameter "StageRequest" rid ∈ (requestStaging env stageLFNs).1 →
        (requestStaging env stageLFNs).1
          = [Event.setStatus "Staging" "Request To Be Sent", Event.setRequestCall true,
             Event.setParameter "StageRequest" rid, Event.setStatus "Staging" "Request Sent"])
    ∧ (∀ n : Nat,
        Event.setStatus "Staging" "Request Sent" ∈ (requestStaging env stageLFNs).1.take n →
        Event.setStatus "Staging" "Request To Be Sent"
          ∈ (requestStaging env stageLFNs).1.take n) := by
  have headStep : ∀ (l : List Event) (n : Nat),
      l.head? = some (Event.setStatus "Staging" "Request To Be Sent") →
      Event.setStatus "Staging" "Request Sent" ∈ l.take n →
      Event.setStatus "Staging" "Request To Be Sent" ∈ l.take n := by
    intro l n hl hm
    cases l with
    | nil => simp at hm
    | cons a rest =>
      cases n with
      | zero => simp at hm
      | succ k =>
        have ha : a = Event.setStatus "Staging" "Request To Be Sent" := by
          simpa using hl
        subst ha
        simp [List.take_succ_cons]
  cases hf : env.firstSetStatus with
  | sError m =>
    have htr : (requestStaging env stageLFNs).1
        = [Event.setStatus "Staging" "Request To Be Sent"] := by
      simp [requestStaging, h1, h2, hf]
    refine ⟨?_, ?_, ?_⟩ <;> rw [htr]
    · simp
    · simp
    · intro n hm
      exact headStep _ n rfl hm
  | sOk u =>
    cases u
    cases hr : env.setRequest with
    | sError m =>
      have htr : (requestStaging env stageLFNs).1
          = [Event.setStatus "Staging" "Request To Be Sent", Event.setRequestCall false] := by
        simp [requestStaging, h1, h2, hf, hr]
      refine ⟨?_, ?_, ?_⟩ <;> rw [htr]
      · simp
      · simp
      · intro n hm
        exact headStep _ n rfl hm
    | sOk rid =>
      have htr : (requestStaging env stageLFNs).1
          = [Event.setStatus "Staging" "Request To Be Sent", Event.setRequestCall true,
             Event.setParameter "StageRequest" (toString rid),
             Event.setStatus "Staging" "Request Sent"] := by
        cases hs : env.secondSetStatus <;> simp [requestStaging, h1, h2, hf, hr, hs]
      refine ⟨?_, ?_, ?_⟩ <;> rw [htr]
      · constructor
        · intro _; simp
        · intro _; exact ⟨toString rid, by simp⟩
      · intro r hmem
        simp only [List.mem_cons, List.mem_singleton] at hmem
        rcases hmem with h | h | h | h
        · exact absurd h (by simp)
        · exact absurd h (by simp)
        · rcases Event.setParameter.inj h with ⟨-, h2'⟩
          rw [h2']
        · exact absurd h (by simp)
      · intro n hm
        exact headStep _ n rfl hm

/-- C8 witness: the ordering claim at a concrete successful environment. -/
theorem c8_dispatcher_ordering_witness :
    (requestStaging ⟨none, none, SResult.sOk (), SResult.sOk 5, SResult.sOk ()⟩
        (["L"] : List String)).1
      = [Event.setStatus "Staging" "Request To Be Sent", Event.setRequestCall true,
         Event.setParameter "StageRequest" "5", Event.setStatus "Staging" "Request Sent"] :=
  (c8_dispatcher_ordering ⟨none, none, SResult.sOk (), SResult.sOk 5, SResult.sOk ()⟩
    (["L"] : List String) rfl rfl).2.1 "5" (by decide)

/-- The claim's `diskSites`: sites whose record has all input data on
disk. -/
def fullDiskSites (inputData : List String) (idSites : List (String × SiteReplicaRecord)) :
    List String :=
  (idSites.filter (fun p => decide (p.2.disk = (inputData.length : Int)))).map Prod.fst

/-- The maximal disk count over the map (0 for the empty map, matching the
loop's initialization). -/
def maxDiskCount (idSites : List (String × SiteReplicaRecord)) : Int :=
  idSites.foldl (fun a q => max a q.2.disk) 0

/-- The claim's `bestSites`: sites attaining the maximal disk count. -/
def bestDiskSites (idSites : List (String × SiteReplicaRecord)) : List String :=
  (idSites.filter (fun p => decide (p.2.disk = maxDiskCount idSites))).map Prod.fst

lemma le_foldl_max (l : List (String × SiteReplicaRecord)) (a : Int) :
    a ≤ l.foldl (fun x q => max x q.2.disk) a := by
  induction l generalizing a with
  | nil => exact le_refl a
  | cons p rest ih => exact le_trans (le_max_left a p.2.disk) (ih (max a p.2.disk))

lemma resolveStep_diskSites (n : Int) (st : ResolveState) (p : String × SiteReplicaRecord) :
    (resolveStep n st p).diskSites
      = if 0 < p.2.disk ∧ p.2.disk = n then st.diskSites ++ [p.1] else st.diskSites := by
  simp only [resolveStep]
  split_ifs <;> simp_all <;> omega

lemma resolveStep_maxOnDisk (n : Int) (st : ResolveState) (p : String × SiteReplicaRecord) :
    (resolveStep n st p).maxOnDisk = max st.maxOnDisk p.2.disk := by
  simp only [resolveStep]
  split_ifs <;> simp_all <;> omega

lemma resolveStep_bestSites (n : Int) (st : ResolveState) (p : String × SiteReplicaRecord) :
    (resolveStep n st p).bestSites
      = if st.maxOnDisk < p.2.disk then [p.1]
        else if p.2.disk = st.maxOnDisk then st.bestSites ++ [p.1] else st.bestSites := by
  simp only [resolveStep]
  split_ifs <;> simp_all

lemma foldl_resolveStep_diskSites (n : Int) (l : List (String × SiteReplicaRecord))
    (s : ResolveState) :
    (l.foldl (resolveStep n) s).diskSites
      = s.diskSites ++ (l.filter (fun p => decide (0 < p.2.disk ∧ p.2.disk = n))).map Prod.fst := by
  induction l generalizing s with
  | nil => simp
  | cons p rest ih =>
    rw [List.foldl_cons, ih, resolveStep_diskSites]
    by_cases h : 0 < p.2.disk ∧ p.2.disk = n
    · rw [if_pos h, List.filter_cons_of_pos (by exact decide_eq_true h), List.map_cons]
      simp
    · rw [if_neg h, List.filter_cons_of_neg (by simp [h])]

lemma foldl_resolveStep_maxOnDisk (n : Int) (l : List (String × SiteReplicaRecord))
    (s : ResolveState) :
    (l.foldl (resolveStep n) s).maxOnDisk
      = l.foldl (fun a q => max a q.2.disk) s.maxOnDisk := by
  induction l generalizing s with
  | nil => rfl
  | cons p rest ih =>
    rw [List.foldl_cons, List.foldl_cons, ih, resolveStep_maxOnDisk]

lemma foldl_resolveStep_bestSites (n : Int) (l : List (String × SiteReplicaRecord))
    (s : ResolveState) :
    (l.foldl (resolveStep n) s).bestSites
      = (if l.foldl (fun a q => max a q.2.disk) s.maxOnDisk = s.maxOnDisk
          then s.bestSites else [])
        ++ (l.filter (fun p =>
            decide (p.2.disk = l.foldl (fun a q => max a q.2.disk) s.maxOnDisk))).map Prod.fst := by
  induction l generalizing s with
  | nil => simp
  | cons p rest ih =>
    simp only [List.foldl_cons]
    rw [ih, resolveStep_maxOnDisk, resolveStep_bestSites]
    by_cases h1 : s.maxOnDisk < p.2.disk
    · simp only [max_eq_right (le_of_lt h1)]
      have hge : p.2.disk ≤ rest.foldl (fun a q => max a q.2.disk) p.2.disk :=
        le_foldl_max rest _
      set M := rest.foldl (fun a q => max a q.2.disk) p.2.disk with hMdef
      have hMm : M ≠ s.maxOnDisk := by omega
      rw [if_neg hMm]
      by_cases h2 : p.2.disk = M
      · rw [if_pos h2.symm, if_pos h1,
          List.filter_cons_of_pos (by exact decide_eq_true h2), List.map_cons]
        rfl
      · rw [if_neg (fun c => h2 c.symm),
          List.filter_cons_of_neg (by simp [h2])]
    · simp only [max_eq_left (by omega : p.2.disk ≤ s.maxOnDisk)]
      have hge : s.maxOnDisk ≤ rest.foldl (fun a q => max a q.2.disk) s.maxOnDisk :=
        le_foldl_max rest _
      set M := rest.foldl (fun a q => max a q.2.disk) s.maxOnDisk with hMdef
      by_cases h3 : M = s.maxOnDisk
      · rw [if_pos h3, if_pos h3, if_neg h1]
        by_cases h2 : p.2.disk = s.maxOnDisk
        · have h2M : p.2.disk = M := by omega
          rw [if_pos h2, List.filter_cons_of_pos (by exact decide_eq_true h2M), List.map_cons]
          simp
        · have h2M : ¬ p.2.disk = M := by omega
          rw [if_neg h2, List.filter_cons_of_neg (by simp [h2M])]
      · rw [if_neg h3, if_neg h3]
        have h2M : ¬ p.2.disk = M := by omega
        rw [List.filter_cons_of_neg (by simp [h2M])]

/-- C7: for non-empty input data and a map of non-negative replica records,
`__resolveStaging` returns `(false, diskSites)` when the sites holding all
input data on disk are non-empty, and otherwise `(true, bs)` where `bs` is
a permutation of the sites attaining the maximal disk count, equal to them
(unshuffled) when at most one site attains it and equal to their shuffle
when more than one does.  `shuffle` is assumed to permute its argument, as
`random.shuffle` does. -/
theorem c7_staging_resolver (shuffle : List String → List String)
    (inputData : List String) (idSites : List (String × SiteReplicaRecord))
    (hne : inputData ≠ [])
    (_hdisk : ∀ p ∈ idSites, 0 ≤ p.2.disk)
    (hshuffle : ∀ l, List.Perm (shuffle l) l) :
    (fullDiskSites inputData idSites ≠ [] →
      resolveStaging shuffle inputData idSites = (false, fullDiskSites inputData idSites))
    ∧ (fullDiskSites inputData idSites = [] →
        (resolveStaging shuffle inputData idSites).1 = true
        ∧ List.Perm (resolveStaging shuffle inputData idSites).2 (bestDiskSites idSites)
        ∧ (1 < (bestDiskSites idSites).length →
            (resolveStaging shuffle inputData idSites).2 = shuffle (bestDiskSites idSites))
        ∧ ((bestDiskSites idSites).length ≤ 1 →
            (resolveStaging shuffle inputData idSites).2 = bestDiskSites idSites)) := by
  have hn : (1 : Int) ≤ (inputData.length : Int) := by
    have h0 : 0 < inputData.length := List.length_pos.mpr hne
    omega
  have hds : (idSites.foldl (resolveStep (inputData.length : Int)) ⟨[], 0, []⟩).diskSites
      = fullDiskSites inputData idSites := by
    rw [foldl_resolveStep_diskSites]
    unfold fullDiskSites
    rw [List.nil_append]
    congr 1
    apply List.filter_congr
    intro p _
    by_cases h : p.2.disk = (inputData.length : Int)
    · simp [h]
      omega
    · simp [h]
  have hbest : (idSites.foldl (resolveStep (inputData.length : Int)) ⟨[], 0, []⟩).bestSites
      = bestDiskSites idSites := by
    rw [foldl_resolveStep_bestSites]
    unfold bestDiskSites maxDiskCount
    simp
  constructor
  · intro h2
    simp only [resolveStaging]
    rw [hds, if_pos h2]
  · intro h2
    simp only [resolveStaging]
    rw [hds, if_neg (by simp [h2]), hbest]
    refine ⟨rfl, ?_, ?_, ?_⟩
    · by_cases hlen : 1 < (bestDiskSites idSites).length
      · rw [if_pos hlen]
        exact hshuffle _
      · rw [if_neg hlen]
    · intro hlen
      rw [if_pos hlen]
    · intro hlen
      rw [if_neg (by omega)]

/-- C7 witness: a map where site X holds both input files on disk, so the
resolver reports no staging with `diskSites = [X]`. -/
theorem c7_staging_resolver_witness :
    resolveStaging (fun l => l) ["L1", "L2"]
        [("X", SiteReplicaRecord.mk 2 0), ("Y", SiteReplicaRecord.mk 1 1)]
      = (false, ["X"]) := by
  have h := (c7_staging_resolver (fun l => l) ["L1", "L2"]
      [("X", SiteReplicaRecord.mk 2 0), ("Y", SiteReplicaRecord.mk 1 1)]
      (by decide) (by decide) (fun l => List.Perm.refl l)).1 (by decide)
  rw [h]
  rfl

lemma foldl_min_le (l : List (String × Int)) (a : Int) :
    l.foldl (fun x q => min x q.2) a ≤ a := by
  induction l generalizing a with
  | nil => exact le_refl a
  | cons p rest ih => exact le_trans (ih (min a p.2)) (min_le_left a p.2)

lemma tierLoop_go (tierOf : String → SResult Int)
    (hT : ∀ s t, tierOf s = SResult.sOk t → 0 ≤ t) (sites : List String) :
    ∀ (lvl : Int) (ts : List String), 1 ≤ lvl →
      tierLoop tierOf sites lvl ts
        = ((normalizedTiers tierOf sites).foldl (fun a r => min a r.2) lvl,
           (if (normalizedTiers tierOf sites).foldl (fun a r => min a r.2) lvl = lvl
              then ts else [])
            ++ ((normalizedTiers tierOf sites).filter (fun q =>
                decide (q.2 = (normalizedTiers tierOf sites).foldl
                  (fun a r => min a r.2) lvl))).map Prod.fst) := by
  induction sites with
  | nil =>
    intro lvl ts _
    simp [tierLoop, normalizedTiers]
  | cons s rest ih =>
    intro lvl ts hlvl
    cases ht : tierOf s with
    | sError m =>
      have hnorm : normalizedTiers tierOf (s :: rest) = normalizedTiers tierOf rest := by
        simp [normalizedTiers, ht]
      simp only [tierLoop, ht, hnorm]
      exact ih lvl ts hlvl
    | sOk t =>
      have hnorm : normalizedTiers tierOf (s :: rest)
          = (s, if t = 0 then 1 else t) :: normalizedTiers tierOf rest := by
        simp [normalizedTiers, ht]
      simp only [tierLoop, ht, hnorm, List.foldl_cons]
      set t' := if t = 0 then 1 else t with htdef
      have ht1 : 1 ≤ t' := by
        rw [htdef]
        have := hT s t ht
        split_ifs <;> omega
      by_cases hc : t' < lvl
      · simp only [min_eq_right (le_of_lt hc), if_pos (Or.inr hc)]
        simp only [if_true, List.nil_append]
        rw [ih t' [s] ht1]
        have hle : (normalizedTiers tierOf rest).foldl (fun a r => min a r.2) t' ≤ t' :=
          foldl_min_le _ t'
        have hMl : (normalizedTiers tierOf rest).foldl (fun a r => min a r.2) t' ≠ lvl := by
          omega
        rw [if_neg hMl]
        congr 1
        by_cases h2 : t' = (normalizedTiers tierOf rest).foldl (fun a r => min a r.2) t'
        · rw [if_pos h2.symm, List.filter_cons_of_pos (by exact decide_eq_true h2),
            List.map_cons]
          rfl
        · rw [if_neg (fun c => h2 c.symm), List.filter_cons_of_neg (by simp [h2])]
      · have hmin : min lvl t' = lvl := min_eq_left (by omega)
        simp only [hmin, if_neg (show ¬(lvl = -1 ∨ t' < lvl) by omega)]
        by_cases h4 : lvl = t'
        · simp only [if_pos h4]
          rw [ih lvl (ts ++ [s]) hlvl]
          congr 1
          by_cases h5 : (normalizedTiers tierOf rest).foldl (fun a r => min a r.2) lvl = lvl
          · have h6 : t' = (normalizedTiers tierOf rest).foldl (fun a r => min a r.2) lvl := by
              omega
            rw [if_pos h5, if_pos h5, List.filter_cons_of_pos (by exact decide_eq_true h6),
              List.map_cons]
            simp
          · have h6 : ¬ t' = (normalizedTiers tierOf rest).foldl (fun a r => min a r.2) lvl := by
              omega
            rw [if_neg h5, if_neg h5, List.filter_cons_of_neg (by simp [h6])]
        · simp only [if_neg h4]
          rw [ih lvl ts hlvl]
          have hle : (normalizedTiers tierOf rest).foldl (fun a r => min a r.2) lvl ≤ lvl :=
            foldl_min_le _ lvl
          have h6 : ¬ t' = (normalizedTiers tierOf rest).foldl (fun a r => min a r.2) lvl := by
            omega
          rw [List.filter_cons_of_neg (by simp [h6])]

lemma tierLoop_start_nil (tierOf : String → SResult Int) (sites : List String)
    (h : normalizedTiers tierOf sites = []) :
    tierLoop tierOf sites (-1) [] = (-1, []) := by
  induction sites with
  | nil => rfl
  | cons s rest ih =>
    cases ht : tierOf s with
    | sError m =>
      simp only [tierLoop, ht]
      exact ih (by simpa [normalizedTiers, ht] using h)
    | sOk t =>
      exfalso
      simp [normalizedTiers, ht] at h

lemma tierLoop_start (tierOf : String → SResult Int)
    (hT : ∀ s t, tierOf s = SResult.sOk t → 0 ≤ t) (sites : List String)
    (hne : normalizedTiers tierOf sites ≠ []) :
    tierLoop tierOf sites (-1) []
      = (minNormTier tierOf sites,
         ((normalizedTiers tierOf sites).filter (fun q =>
           decide (q.2 = minNormTier tierOf sites))).map Prod.fst) := by
  induction sites with
  | nil => exact absurd (by simp [normalizedTiers]) hne
  | cons s rest ih =>
    cases ht : tierOf s with
    | sError m =>
      have hnorm : normalizedTiers tierOf (s :: rest) = normalizedTiers tierOf rest := by
        simp [normalizedTiers, ht]
      have hmin : minNormTier tierOf (s :: rest) = minNormTier tierOf rest := by
        unfold minNormTier
        rw [hnorm]
      simp only [tierLoop, ht, hnorm, hmin]
      exact ih (by rwa [hnorm] at hne)
    | sOk t =>
      have hnorm : normalizedTiers tierOf (s :: rest)
          = (s, if t = 0 then 1 else t) :: normalizedTiers tierOf rest := by
        simp [normalizedTiers, ht]
      have hmin : minNormTier tierOf (s :: rest)
          = (normalizedTiers tierOf rest).foldl (fun a r => min a r.2)
              (if t = 0 then 1 else t) := by
        unfold minNormTier
        rw [hnorm]
      simp only [tierLoop, ht, hnorm, hmin, true_or, if_true]
      set t' := if t = 0 then 1 else t with htdef
      have ht1 : 1 ≤ t' := by
        rw [htdef]
        have := hT s t ht
        split_ifs <;> omega
      simp only [if_true, List.nil_append]
      rw [tierLoop_go tierOf hT rest t' [s] ht1]
      congr 1
      by_cases h2 : t' = (normalizedTiers tierOf rest).foldl (fun a r => min a r.2) t'
      · rw [if_pos h2.symm, List.filter_cons_of_pos (by exact decide_eq_true h2),
          List.map_cons]
        rfl
      · rw [if_neg (fun c => h2 c.symm), List.filter_cons_of_neg (by simp [h2])]
        rfl

/-- C10: for every site list and tier oracle whose tiers are non-negative,
`__setJobSite` computes exactly the claim's description: "ANY" for an
empty list, the site itself for a singleton, and otherwise — skipping
failed lookups and normalizing tier 0 to 1 — "Group." plus the unique
minimum-tier site stripped of its leading dotted token when exactly one
site attains the minimum, else "Multiple". -/
theorem c10_site_summarizer (tierOf : String → SResult Int) (siteList : List String)
    (hT : ∀ s t, tierOf s = SResult.sOk t → 0 ≤ t) :
    setJobSite tierOf siteList = setJobSiteSpec tierOf siteList := by
  match siteList with
  | [] => rfl
  | [s] => rfl
  | s1 :: s2 :: rest =>
    simp only [setJobSite, setJobSiteSpec]
    by_cases hN : normalizedTiers tierOf (s1 :: s2 :: rest) = []
    · rw [tierLoop_start_nil tierOf _ hN]
      simp [hN]
    · rw [tierLoop_start tierOf hT _ hN]

/-- C10 witness: three sites, tiers 0 (normalized to 1), 2, 2: the unique
minimum-tier site is `LCG.CERN.ch`, so the attribute is `Group.CERN.ch`. -/
theorem c10_site_summarizer_witness :
    setJobSite (fun s => if s = "LCG.CERN.ch" then SResult.sOk 0 else SResult.sOk 2)
        ["LCG.CERN.ch", "LCG.DESY.de", "LCG.PIC.es"]
      = "Group.CERN.ch" := by
  have h := c10_site_summarizer
    (fun s => if s = "LCG.CERN.ch" then SResult.sOk 0 else SResult.sOk 2)
    ["LCG.CERN.ch", "LCG.DESY.de", "LCG.PIC.es"]
    (by
      intro s t ht
      by_cases hs : s = "LCG.CERN.ch" <;> simp [hs] at ht <;> omega)
  rw [h]
  decide

end JobScheduling
